import Mathlib

/- Shallow embedding of the Monty Python Flying API repository (src/api):
   the Script row data model (models.py), the query and formatting operations
   of crud.py, and the call-site behaviour of main.py.  SQLite LIKE matching
   and the difflib close-match similarity used by crud.get_sketch are embedded
   faithfully (ASCII-case-insensitive LIKE with percent and underscore
   wildcards; difflib ratio as 2*M/T over greedy longest-matching-blocks,
   with exact rational arithmetic standing in for the float computation,
   which agrees with it at these magnitudes). -/

/-- One row of the scripts table (models.Script).  The episode column holds
the episode number; all text columns are nullable. -/
structure Row where
  episode : Nat
  episodeName : Option String
  segment : Option String
  type : Option String
  actor : Option String
  character : Option String
  detail : Option String
deriving DecidableEq

/-- An HTTPException raised by crud.py (status code plus detail message);
status 500 stands for an uncaught Python exception surfaced by the framework. -/
structure ApiError where
  status : Nat
  detail : String
deriving DecidableEq

/-- ASCII case folding used by SQLite LIKE (only A-Z fold). -/
def likeFoldChar (c : Char) : Char :=
  if 'A' ≤ c ∧ c ≤ 'Z' then Char.ofNat (c.toNat + 32) else c

/-- Character comparison under SQLite LIKE (ASCII-case-insensitive). -/
def likeCharEq (p c : Char) : Bool := likeFoldChar p == likeFoldChar c

/-- Fueled core of SQLite LIKE matching: percent matches any run of
characters, underscore matches exactly one, other characters match
ASCII-case-insensitively.  Fuel is structural; likeMatch supplies enough. -/
def likeGo : Nat → List Char → List Char → Bool
  | 0, _, _ => false
  | _ + 1, [], s => s.isEmpty
  | fuel + 1, p :: ps, s =>
    if p = '%' then
      likeGo fuel ps s ||
        (match s with
         | [] => false
         | _ :: s2 => likeGo fuel (p :: ps) s2)
    else
      match s with
      | [] => false
      | c :: s2 =>
        if p = '_' then likeGo fuel ps s2
        else likeCharEq p c && likeGo fuel ps s2

/-- SQLite LIKE: does pattern p match string s. -/
def likeMatch (p s : List Char) : Bool := likeGo (p.length + s.length + 1) p s

/-- Column LIKE pattern on the segment column; a NULL segment never matches. -/
def segLike (pat : String) (r : Row) : Bool :=
  match r.segment with
  | some sg => likeMatch pat.data sg.data
  | none => false

/-- Length of the common run of two character lists (used for the
longest-matching-block search of difflib). -/
def runLen : List Char → List Char → Nat
  | a :: as, b :: bs => if a = b then runLen as bs + 1 else 0
  | _, _ => 0

/-- difflib SequenceMatcher find_longest_match on the windows
[alo, ahi) of a and [blo, bhi) of b, with no junk: the longest common
block, ties resolved to the smallest start in a then in b, exactly as the
strictly-greater update of the difflib scan resolves them. -/
def find_longest_match (a b : List Char) (alo ahi blo bhi : Nat) :
    Nat × Nat × Nat :=
  (List.range' alo (ahi - alo)).foldl
    (fun best i =>
      (List.range' blo (bhi - blo)).foldl
        (fun best j =>
          let k := runLen ((a.drop i).take (ahi - i)) ((b.drop j).take (bhi - j))
          if best.2.2 < k then (i, j, k) else best)
        best)
    (alo, blo, 0)

/-- Total size of all matching blocks (difflib get_matching_blocks):
recursively split around the longest match.  Each recursive call shrinks the
window sum by at least one, so the fuel used by mTotal never runs out. -/
def mBlocks : Nat → List Char → List Char → Nat → Nat → Nat → Nat → Nat
  | 0, _, _, _, _, _, _ => 0
  | fuel + 1, a, b, alo, ahi, blo, bhi =>
    let r := find_longest_match a b alo ahi blo bhi
    if r.2.2 = 0 then 0
    else
      r.2.2 + mBlocks fuel a b alo r.1 blo r.2.1 +
        mBlocks fuel a b (r.1 + r.2.2) ahi (r.2.1 + r.2.2) bhi

/-- Total matched size M for difflib ratio of candidate x against word w. -/
def mTotal (x w : String) : Nat :=
  mBlocks (x.length + w.length + 1) x.data w.data 0 x.length 0 w.length

/-- Numerator of the difflib SequenceMatcher ratio of candidate x against
word w: the ratio is 2*M/T with T the total length, and 1 when both strings
are empty.  The ratio is kept as an exact numerator and denominator pair; at
the string sizes involved the float computation of difflib orders and
compares identically, so exact comparison is faithful. -/
def simNum (x w : String) : Nat :=
  if x.length + w.length = 0 then 1 else 2 * mTotal x w

/-- Denominator of the difflib ratio of candidate x against word w. -/
def simDen (x w : String) : Nat :=
  if x.length + w.length = 0 then 1 else x.length + w.length

/-- The cutoff test of difflib get_close_matches at cutoff 0.5: the ratio of
x against w is at least one half. -/
def simGe50 (x w : String) : Bool :=
  simDen x w ≤ 2 * simNum x w

/-- Ratio of x against w is strictly below the ratio of y against w
(exact cross-multiplied comparison). -/
def ratioLtB (w x y : String) : Bool :=
  simNum x w * simDen y w < simNum y w * simDen x w

/-- Ratio of x against w is at most the ratio of y against w. -/
def ratioLeB (w x y : String) : Bool :=
  simNum x w * simDen y w ≤ simNum y w * simDen x w

/-- Ratios of x and y against w are equal. -/
def ratioEqB (w x y : String) : Bool :=
  simNum x w * simDen y w == simNum y w * simDen x w

/-- Python code-point string comparison (used by heapq nlargest tie-break). -/
def strLtCP : List Char → List Char → Bool
  | [], [] => false
  | [], _ :: _ => true
  | _ :: _, [] => false
  | a :: as, b :: bs =>
    if a < b then true else if b < a then false else strLtCP as bs

/-- One step of selecting the largest (ratio, string) pair, as heapq
nlargest compares the (score, candidate) tuples of difflib. -/
def pbStep (w : String) (acc : Option String) (x : String) : Option String :=
  match acc with
  | none => some x
  | some b =>
    if ratioLtB w b x || (ratioEqB w x b && strLtCP b.data x.data)
    then some x else some b

/-- Largest (ratio, string) element of a list, none when empty. -/
def pickBest (w : String) (l : List String) : Option String :=
  l.foldl (pbStep w) none

/-- difflib get_close_matches with n = 1 and cutoff = 0.5: the best-scoring
candidate whose ratio is at least one half, none when no candidate reaches
the cutoff.  The quick-ratio pre-filters of difflib are upper bounds of the
ratio and never exclude a candidate that passes the final ratio test. -/
def get_close_matches1 (word : String) (poss : List String) : Option String :=
  pickBest word (poss.filter (fun x => simGe50 x word))

/-- Streaming SQL DISTINCT: keep the first occurrence of each value. -/
def dkfGo : List String → List String → List String
  | _, [] => []
  | seen, x :: xs => if x ∈ seen then dkfGo seen xs else x :: dkfGo (x :: seen) xs

/-- DISTINCT over a list of values, first occurrences kept in order. -/
def distinctKeepFirst (l : List String) : List String := dkfGo [] l

/-- A formatted line of a sketch body: either the condensed string of the
default view or the structured record of the detailed view, whose fields are
exactly type, actor, character and detail. -/
inductive FLine where
  | condensed (text : String)
  | record (type actor character detail : Option String)
deriving DecidableEq

/-- Python f-string rendering of a nullable column (None prints as None). -/
def pyStr : Option String → String
  | none => "None"
  | some s => s

/-- crud.get_formatted_sketch_body: detailed view breaks each line into a
record; default view condenses a Dialogue line to character colon text and
any other line to text between asterisks. -/
def get_formatted_sketch_body (lines : List Row) (detailed : Bool) :
    List FLine :=
  if detailed then
    lines.map (fun l => .record l.type l.actor l.character l.detail)
  else
    lines.map (fun l =>
      if l.type == some "Dialogue" then
        .condensed (pyStr l.character ++ ": " ++ pyStr l.detail)
      else
        .condensed ("*" ++ pyStr l.detail ++ "*"))

/-- The combined optional filters of crud.get_random_quote: a zero episode
and an empty actor or sketch string are falsy in Python and add no filter;
actor and sketch filters use SQL LIKE. -/
def quote_filters (actor : Option String) (episode : Option Nat)
    (sketch : Option String) (r : Row) : Bool :=
  (match episode with
   | some n => if n ≠ 0 then r.episode == n else true
   | none => true)
  && (match actor with
      | some a =>
        if a ≠ "" then
          (match r.actor with
           | some x => likeMatch a.data x.data
           | none => false)
        else true
      | none => true)
  && (match sketch with
      | some s => if s ≠ "" then segLike s r else true
      | none => true)

/-- The candidate rows of crud.get_random_quote: Dialogue rows passing the
optional filters.  The row list stands for the table in the order produced
by ORDER BY random(), so quantifying over row lists covers every draw. -/
def dialogue_candidates (rows : List Row) (actor : Option String)
    (episode : Option Nat) (sketch : Option String) : List Row :=
  rows.filter (fun r => (r.type == some "Dialogue") && quote_filters actor episode sketch r)

/-- The dictionary returned by crud.get_random_quote. -/
structure QuoteOut where
  episode : Nat
  sketch : Option String
  actor : Option String
  quote : Option String
deriving DecidableEq

/-- crud.get_random_quote: first Dialogue row passing the filters, 404 when
none exists. -/
def get_random_quote (rows : List Row) (actor : Option String)
    (episode : Option Nat) (sketch : Option String) :
    Except ApiError QuoteOut :=
  match (dialogue_candidates rows actor episode sketch).head? with
  | none => .error ⟨404, "Quote not found"⟩
  | some q => .ok ⟨q.episode, q.segment, q.actor, q.detail⟩

/-- Rows of the group of one actor name that have a non-null detail column:
this is what COUNT of the detail column counts in crud.get_actors. -/
def count_detail_by_actor (rows : List Row) (name : String) : Nat :=
  (rows.filter (fun r => r.actor == some name && r.detail.isSome)).length

/-- Rows of the group of one character name with a non-null detail column. -/
def count_detail_by_character (rows : List Row) (name : String) : Nat :=
  (rows.filter (fun r => r.character == some name && r.detail.isSome)).length

/-- Insertion into a list kept sorted by descending count. -/
def insertByCountDesc (cnt : String → Nat) (x : String) :
    List String → List String
  | [] => [x]
  | y :: ys =>
    if cnt y ≤ cnt x then x :: y :: ys else y :: insertByCountDesc cnt x ys

/-- Sort by descending count (ORDER BY count DESC; tie order in SQL is
unspecified, so any order realising the sort is a faithful refinement). -/
def sortByCountDesc (cnt : String → Nat) (l : List String) : List String :=
  l.foldr (insertByCountDesc cnt) []

/-- crud.get_actors: distinct non-null actor names ordered by descending
COUNT of the detail column within each group. -/
def get_actors (rows : List Row) : List String :=
  sortByCountDesc (count_detail_by_actor rows)
    (distinctKeepFirst (rows.filterMap (fun r => r.actor)))

/-- crud.get_characters: distinct non-null character names ordered by
descending COUNT of the detail column within each group. -/
def get_characters (rows : List Row) : List String :=
  sortByCountDesc (count_detail_by_character rows)
    (distinctKeepFirst (rows.filterMap (fun r => r.character)))

/-- models.Script.season_ranges: Python range(1, 14), range(14, 27),
range(27, 40), range(40, 46). -/
def season_ranges : List (List Nat) :=
  [List.range' 1 13, List.range' 14 13, List.range' 27 13, List.range' 40 6]

/-- Distinct non-null segment names over the whole table, as returned by
crud.get_all_sketches with no season argument. -/
def all_segment_names (rows : List Row) : List String :=
  distinctKeepFirst (rows.filterMap (fun r => r.segment))

/-- The lower BETWEEN bound of crud.get_all_sketches for a season: element
zero of the season range. -/
def season_lower (s : Nat) : Nat := (season_ranges.getD (s - 1) []).headD 0

/-- The upper BETWEEN bound of crud.get_all_sketches for a season: the last
element of the season range (Python index minus one). -/
def season_upper (s : Nat) : Nat := (season_ranges.getD (s - 1) []).getLastD 0

/-- crud.get_all_sketches: distinct non-null segments, optionally restricted
to episodes BETWEEN the first and last entry of the season range; season 0
is falsy in Python and skips the filter; other seasons outside 1-4 raise. -/
def get_all_sketches (rows : List Row) (season : Option Nat) :
    Except ApiError (List String) :=
  match season with
  | none => .ok (all_segment_names rows)
  | some s =>
    if s = 0 then .ok (all_segment_names rows)
    else if s ∈ ([1, 2, 3, 4] : List Nat) then
      .ok (distinctKeepFirst
        (((rows.filter (fun r =>
            season_lower s ≤ r.episode && r.episode ≤ season_upper s)).filterMap
          (fun r => r.segment))))
    else .error ⟨404, "Season out of range"⟩

/-- crud.get_episode_sketches: 404 outside 1-45, else the distinct non-null
segments of the episode.  NULL segments are filtered out here, which is what
starves the cold-open branch of crud.get_episode. -/
def get_episode_sketches (rows : List Row) (episode : Nat) :
    Except ApiError (List String) :=
  if episode < 1 || 45 < episode then .error ⟨404, "Episode out of range"⟩
  else
    .ok (distinctKeepFirst
      ((rows.filter (fun r => r.episode == episode)).filterMap
        (fun r => r.segment)))

/-- crud.get_nested_episode_sketches: the episode key with its sketches. -/
def get_nested_episode_sketches (rows : List Row) (episode : Nat) :
    Except ApiError (String × List String) :=
  (get_episode_sketches rows episode).map
    (fun l => ("episode_" ++ toString episode, l))

/-- crud.get_nested_season_sketches: one season key mapped over the episode
numbers of its entry in season_ranges. -/
def get_nested_season_sketches (rows : List Row) (season : Nat) :
    Except ApiError (String × List (String × List String)) :=
  ((season_ranges.getD (season - 1) []).mapM
    (fun ep => get_nested_episode_sketches rows ep)).map
    (fun l => ("season_" ++ toString season, l))

/-- crud.get_nested_seasons: season 0 is falsy in Python and falls into the
all-seasons branch; a truthy season outside 1-4 raises 404. -/
def get_nested_seasons (rows : List Row) (season : Option Nat) :
    Except ApiError (List (String × List (String × List String))) :=
  match season with
  | some s =>
    if s = 0 then ([1, 2, 3, 4] : List Nat).mapM (get_nested_season_sketches rows)
    else if s ∈ ([1, 2, 3, 4] : List Nat) then
      (get_nested_season_sketches rows s).map (fun p => [p])
    else .error ⟨404, "Season not found"⟩
  | none => ([1, 2, 3, 4] : List Nat).mapM (get_nested_season_sketches rows)

/-- The dictionary returned by crud.get_sketch. -/
structure SketchOut where
  sketch : Option String
  episode : Nat
  episodeName : Option String
  body : List FLine
deriving DecidableEq

/-- The query and packaging shared by both branches of crud.get_sketch:
rows whose segment LIKE-matches the chosen name, 404 when none. -/
def sketch_lookup (rows : List Row) (choice : String) (detailed : Bool) :
    Except ApiError SketchOut :=
  match (rows.filter (segLike choice)).head? with
  | none => .error ⟨404, "Sketch not found"⟩
  | some fst =>
    .ok ⟨fst.segment, fst.episode, fst.episodeName,
      get_formatted_sketch_body (rows.filter (segLike choice)) detailed⟩

/-- The name crud.get_sketch actually queries for a given input: the single
best close match when one reaches the 0.5 cutoff, else the raw input. -/
def sketch_query_name (rows : List Row) (s : String) : String :=
  match get_close_matches1 s (all_segment_names rows) with
  | some m => m
  | none => s

/-- crud.get_sketch: with no name, random.choice over all sketch names
(modelled by an arbitrary index; on an empty list the Python call raises
IndexError, surfaced as a 500); with a name, the close-match replacement
followed by the LIKE lookup. -/
def get_sketch (rows : List Row) (sketchArg : Option String)
    (detailed : Bool) (randIdx : Nat) : Except ApiError SketchOut :=
  match sketchArg with
  | none =>
    let names := all_segment_names rows
    match names.get? (randIdx % names.length) with
    | none => .error ⟨500, "IndexError"⟩
    | some c => sketch_lookup rows c detailed
  | some s => sketch_lookup rows (sketch_query_name rows s) detailed

/-- One sketch block of an episode body. -/
structure SketchBlock where
  sketch : String
  lines : List FLine
deriving DecidableEq

/-- The dictionary returned by crud.get_episode. -/
structure EpisodeOut where
  episode : Nat
  episodeName : Option String
  body : List SketchBlock
deriving DecidableEq

/-- crud.get_episode: a zero or missing number is falsy in Python and is
replaced by random.randint(1, 45), modelled by the rand argument; the body
is grouped by the names from get_episode_sketches, an empty name selecting
the NULL-segment rows and any other name the LIKE-matching rows. -/
def get_episode (rows : List Row) (number : Option Nat) (detailed : Bool)
    (rand : Nat) : Except ApiError EpisodeOut :=
  let n := match number with
           | some m => if m = 0 then rand else m
           | none => rand
  let q := rows.filter (fun r => r.episode == n)
  match q.head? with
  | none => .error ⟨404, "Episode not found"⟩
  | some fst =>
    match get_episode_sketches rows n with
    | .error e => .error e
    | .ok sk =>
      .ok ⟨n, fst.episodeName,
        sk.map (fun name =>
          let lines :=
            if name = "" then q.filter (fun r => r.segment == none)
            else q.filter (segLike name)
          ⟨name, get_formatted_sketch_body lines detailed⟩)⟩

/-- The parameters accepted by crud.get_random_quote as written in
crud.py. -/
def crud_random_quote_params : List String :=
  ["db", "actor", "episode", "sketch"]

/-- The keyword arguments the /quotes/random endpoint of main.py passes to
crud.get_random_quote on every request. -/
def main_random_quote_call_kwargs : List String :=
  ["actor", "episode", "sketch", "min_length", "max_length"]

/-- Python keyword-argument binding: every keyword must name a parameter,
else the call raises TypeError before the function body runs. -/
def pythonCallBinds (params kwargs : List String) : Bool :=
  kwargs.all (fun k => params.contains k)

instance {ε α : Type} [DecidableEq ε] [DecidableEq α] :
    DecidableEq (Except ε α) := fun a b =>
  match a, b with
  | .error e1, .error e2 => decidable_of_iff (e1 = e2) (by simp)
  | .error _, .ok _ => .isFalse (by simp)
  | .ok _, .error _ => .isFalse (by simp)
  | .ok a1, .ok a2 => decidable_of_iff (a1 = a2) (by simp)

/-- Rendering of one script line as the specification words it: when the
detailed flag is false a Dialogue line is the condensed string of character,
colon, text and any other (stage direction) line is the text between
asterisks; when the flag is true every line is the structured record of
type, actor, character and text detail. -/
def specRenderLine (detailed : Bool) (r : Row) : FLine :=
  if detailed then .record r.type r.actor r.character r.detail
  else
    match r.type with
    | some "Dialogue" => .condensed (pyStr r.character ++ ": " ++ pyStr r.detail)
    | _ => .condensed ("*" ++ pyStr r.detail ++ "*")

/-- The fixed season table as the specification words it: season 1 covers
episodes 1 to 13, season 2 covers 14 to 26, season 3 covers 27 to 39 and
season 4 covers 40 to 45. -/
def specSeasonEpisodes : Nat → List Nat
  | 1 => List.range' 1 13
  | 2 => List.range' 14 13
  | 3 => List.range' 27 13
  | 4 => List.range' 40 6
  | _ => []

/-- Episode 1 with one cold-open line (NULL segment) and one line of a named
sketch: the failing input of the cold-open omission. -/
def c1Rows : List Row :=
  [⟨1, some "Whither Canada", none, some "Direction", none, none,
      some "opening scene"⟩,
   ⟨1, some "Whither Canada", some "Famous Deaths", some "Dialogue",
      some "Cleese", some "Announcer", some "good evening"⟩]

/-- A table with the single sketch Spam, for the fuzzy-lookup counterexample. -/
def c3Rows : List Row :=
  [⟨1, some "Ep", some "Spam", some "Dialogue", some "Idle",
      some "Waitress", some "spam"⟩]

/-- One row in episode 1, enough for get_episode to succeed on the random
path taken when the number zero is passed. -/
def c5Rows : List Row :=
  [⟨1, some "Ep", some "Spam", some "Dialogue", some "Idle",
      some "Waitress", some "spam"⟩]

/-- A table where every episode 1 to 45 has a Dialogue line but every
segment is NULL: the precondition of the random-endpoint claim holds yet the
sketch-name list is empty. -/
def c8NullRows : List Row :=
  (List.range' 1 45).map
    (fun i => ⟨i, some "Name", none, some "Dialogue", some "Idle",
      some "Man", some "line"⟩)

/-- A table where every episode 1 to 45 has a Dialogue line with a named
segment. -/
def c8DemoRows : List Row :=
  (List.range' 1 45).map
    (fun i => ⟨i, some "Name", some ("Sk" ++ toString i), some "Dialogue",
      some "Idle", some "Man", some "line"⟩)

/-- One Dialogue row for the random-quote invariant witness. -/
def c9Rows : List Row :=
  [⟨3, some "Ep3", some "Parrot", some "Dialogue", some "Cleese",
      some "Praline", some "It is dead"⟩]

/-- Actor A has two lines, both with NULL detail; actor B has one line with
a non-null detail: COUNT of detail orders B first although A has more lines. -/
def c10Rows : List Row :=
  [⟨1, none, none, some "Dialogue", some "A", some "CA", none⟩,
   ⟨1, none, none, some "Dialogue", some "A", some "CA", none⟩,
   ⟨2, none, none, some "Dialogue", some "B", some "CB", some "hi"⟩]

/-- Number of script lines attributed to an actor name (what the claim says
the ordering key is; the code orders by COUNT of the detail column instead). -/
def lines_by_actor (rows : List Row) (name : String) : Nat :=
  (rows.filter (fun r => r.actor == some name)).length

theorem head?_mem {α : Type} {l : List α} {x : α} (h : l.head? = some x) :
    x ∈ l := by
  cases l with
  | nil => simp at h
  | cons a t => simp at h; simp [h]

/-- C2: the /quotes/random endpoint of main.py forwards min_length and
max_length keywords, but crud.get_random_quote as written in crud.py accepts
only db, actor, episode and sketch, so the call never binds: Python raises
TypeError before any length filtering or clamping could run. -/
theorem quote_length_params_never_bind :
    pythonCallBinds crud_random_quote_params main_random_quote_call_kwargs
      = false
    ∧ main_random_quote_call_kwargs.contains "min_length" = true
    ∧ crud_random_quote_params.contains "min_length" = false := by
  decide

set_option maxRecDepth 400000 in
/-- C1: evaluating crud.get_episode on an episode holding a NULL-segment
cold-open line and one named-sketch line: the episode has two lines but the
returned body contains only the named sketch with its single line; the
cold-open line is dropped, because get_episode_sketches filters segment IS
NOT NULL and so the NULL branch of get_episode never receives a name. -/
theorem episode_drops_null_segment_lines :
    (c1Rows.filter (fun r => r.episode == 1)).length = 2
    ∧ get_episode c1Rows (some 1) false 1 =
        .ok ⟨1, some "Whither Canada",
          [⟨"Famous Deaths", [.condensed "Announcer: good evening"]⟩]⟩ := by
  decide

set_option maxRecDepth 400000 in
/-- C5: the number zero is outside the valid bounds, yet because crud.py
tests the argument with Python truthiness, season 0 falls into the
all-seasons branch of get_nested_seasons and the no-filter branch of
get_all_sketches, and episode 0 makes get_episode return a random episode;
none of the three raises 404.  Only get_episode_sketches, which compares
against the bounds explicitly, rejects 0. -/
theorem zero_number_skips_range_check :
    (get_nested_seasons [] (some 0)).toBool = true
    ∧ (get_all_sketches [] (some 0)).toBool = true
    ∧ (get_episode c5Rows (some 0) false 1).toBool = true
    ∧ (get_episode_sketches [] 0).toBool = false := by
  decide

/-- C7: crud.get_formatted_sketch_body renders every line exactly as the
specification words it: condensed character-colon-text for Dialogue and
starred text for a stage direction when the detailed flag is false, and the
record of type, actor, character and detail when it is true. -/
theorem formatted_body_matches_spec_rendering (lines : List Row)
    (detailed : Bool) :
    get_formatted_sketch_body lines detailed =
      lines.map (specRenderLine detailed) := by
  cases detailed with
  | true =>
    apply List.map_congr_left
    intro r _
    simp [specRenderLine]
  | false =>
    apply List.map_congr_left
    intro r _
    simp only [specRenderLine, if_neg (by simp : ¬False)]
    cases ht : r.type with
    | none => simp [ht]
    | some t =>
      by_cases hd : t = "Dialogue"
      · simp [ht, hd]
      · simp [ht, hd]

/-- C9: every quote returned by crud.get_random_quote comes from a row of
the table whose type is Dialogue, whatever combination of actor, episode
and sketch filters is supplied: the base query filters type Dialogue before
any optional filter is applied, so a stage-direction line can never be
returned. -/
theorem random_quote_is_dialogue (rows : List Row) (a : Option String)
    (e : Option Nat) (sk : Option String) (q : QuoteOut)
    (h : get_random_quote rows a e sk = .ok q) :
    ∃ row, row ∈ rows ∧ row.type = some "Dialogue" ∧
      q = ⟨row.episode, row.segment, row.actor, row.detail⟩ := by
  unfold get_random_quote at h
  cases hh : (dialogue_candidates rows a e sk).head? with
  | none => rw [hh] at h; cases h
  | some row =>
    rw [hh] at h
    have hq : q = ⟨row.episode, row.segment, row.actor, row.detail⟩ := by
      injection h with h2
      exact h2.symm
    have hm : row ∈ dialogue_candidates rows a e sk := head?_mem hh
    unfold dialogue_candidates at hm
    obtain ⟨hrow, hp⟩ := List.mem_filter.mp hm
    have hb := (Bool.and_eq_true _ _).mp hp
    exact ⟨row, hrow, eq_of_beq hb.1, hq⟩

/-- Witness for C9 at a concrete table: the quote returned with no filters
originates in a Dialogue row. -/
theorem random_quote_is_dialogue_witness :
    ∃ row, row ∈ c9Rows ∧ row.type = some "Dialogue" ∧
      (⟨3, some "Parrot", some "Cleese", some "It is dead"⟩ : QuoteOut) =
        ⟨row.episode, row.segment, row.actor, row.detail⟩ :=
  random_quote_is_dialogue c9Rows none none none
    ⟨3, some "Parrot", some "Cleese", some "It is dead"⟩ (by decide)

/-- C6: whenever the filtered query of crud.get_random_quote,
crud.get_sketch (with a name) or crud.get_episode (with a non-zero number)
yields zero rows, the operation returns the corresponding 404 error and in
particular never returns an empty result as a success. -/
theorem empty_query_yields_not_found (rows : List Row) (a : Option String)
    (e : Option Nat) (sk : Option String) (inp : String) (d : Bool)
    (r n : Nat)
    (h1 : dialogue_candidates rows a e sk = [])
    (h2 : rows.filter (segLike (sketch_query_name rows inp)) = [])
    (h3 : n ≠ 0)
    (h4 : rows.filter (fun row => row.episode == n) = []) :
    get_random_quote rows a e sk = .error ⟨404, "Quote not found"⟩
    ∧ get_sketch rows (some inp) d r = .error ⟨404, "Sketch not found"⟩
    ∧ get_episode rows (some n) d r = .error ⟨404, "Episode not found"⟩ := by
  refine ⟨?_, ?_, ?_⟩
  · simp [get_random_quote, h1]
  · simp [get_sketch, sketch_lookup, h2]
  · simp [get_episode, if_neg h3, h4]

/-- Witness for C6 on the empty table. -/
theorem empty_query_yields_not_found_witness :
    get_random_quote [] none none none = .error ⟨404, "Quote not found"⟩
    ∧ get_sketch [] (some "x") false 0 = .error ⟨404, "Sketch not found"⟩
    ∧ get_episode [] (some 7) false 0 = .error ⟨404, "Episode not found"⟩ :=
  empty_query_yields_not_found [] none none none "x" false 0 7
    (by decide) (by decide) (by decide) (by decide)

theorem season_filter_eq (rows : List Row) (s lo hi st len : Nat)
    (hne : s ≠ 0) (hmem : s ∈ ([1, 2, 3, 4] : List Nat))
    (hlo : season_lower s = lo) (hhi : season_upper s = hi)
    (hspec : specSeasonEpisodes s = List.range' st len)
    (hb1 : st = lo) (hb2 : st + len = hi + 1) :
    (∀ e : Nat,
      (season_lower s ≤ e ∧ e ≤ season_upper s) ↔ e ∈ specSeasonEpisodes s)
    ∧ get_all_sketches rows (some s) =
        .ok (distinctKeepFirst
          ((rows.filter
              (fun r => decide (r.episode ∈ specSeasonEpisodes s))).filterMap
            (fun r => r.segment))) := by
  have hiff : ∀ e : Nat,
      (season_lower s ≤ e ∧ e ≤ season_upper s) ↔ e ∈ specSeasonEpisodes s := by
    intro e
    rw [hlo, hhi, hspec, List.mem_range'_1]
    omega
  refine ⟨hiff, ?_⟩
  have hf : ∀ r ∈ rows,
      (season_lower s ≤ r.episode && r.episode ≤ season_upper s)
        = decide (r.episode ∈ specSeasonEpisodes s) := by
    intro r _
    rw [← Bool.decide_and]
    simp only [decide_eq_decide]
    exact hiff r.episode
  simp only [get_all_sketches, if_neg hne, if_pos hmem]
  rw [List.filter_congr hf]

/-- C4: for every season 1 to 4, the episode set used by the season
operations is exactly the fixed table of the specification: the entry of
season_ranges iterated by get_nested_season_sketches equals the table, and
the BETWEEN filter of get_all_sketches selects exactly the episodes of the
table. -/
theorem season_ranges_match_table (rows : List Row) (s : Nat)
    (h1 : 1 ≤ s) (h2 : s ≤ 4) :
    season_ranges.getD (s - 1) [] = specSeasonEpisodes s
    ∧ (∀ e : Nat,
        (season_lower s ≤ e ∧ e ≤ season_upper s) ↔ e ∈ specSeasonEpisodes s)
    ∧ get_all_sketches rows (some s) =
        .ok (distinctKeepFirst
          ((rows.filter
              (fun r => decide (r.episode ∈ specSeasonEpisodes s))).filterMap
            (fun r => r.segment))) := by
  have hs : s = 1 ∨ s = 2 ∨ s = 3 ∨ s = 4 := by omega
  rcases hs with rfl | rfl | rfl | rfl
  · exact ⟨by decide, season_filter_eq rows 1 1 13 1 13 (by decide) (by decide)
      (by decide) (by decide) rfl (by decide) (by decide)⟩
  · exact ⟨by decide, season_filter_eq rows 2 14 26 14 13 (by decide) (by decide)
      (by decide) (by decide) rfl (by decide) (by decide)⟩
  · exact ⟨by decide, season_filter_eq rows 3 27 39 27 13 (by decide) (by decide)
      (by decide) (by decide) rfl (by decide) (by decide)⟩
  · exact ⟨by decide, season_filter_eq rows 4 40 45 40 6 (by decide) (by decide)
      (by decide) (by decide) rfl (by decide) (by decide)⟩

/-- Witness for C4 at season 2 on the empty table. -/
theorem season_ranges_match_table_witness :
    season_ranges.getD (2 - 1) [] = specSeasonEpisodes 2
    ∧ (∀ e : Nat,
        (season_lower 2 ≤ e ∧ e ≤ season_upper 2) ↔ e ∈ specSeasonEpisodes 2)
    ∧ get_all_sketches [] (some 2) =
        .ok (distinctKeepFirst
          ((([] : List Row).filter
              (fun r => decide (r.episode ∈ specSeasonEpisodes 2))).filterMap
            (fun r => r.segment))) :=
  season_ranges_match_table [] 2 (by decide) (by decide)

theorem mem_insertByCountDesc (cnt : String → Nat) (x y : String)
    (l : List String) :
    y ∈ insertByCountDesc cnt x l ↔ y = x ∨ y ∈ l := by
  induction l with
  | nil => simp [insertByCountDesc]
  | cons a t ih =>
    by_cases h : cnt a ≤ cnt x
    · simp [insertByCountDesc, if_pos h]
    · simp [insertByCountDesc, if_neg h, ih]
      tauto

theorem sorted_insertByCountDesc (cnt : String → Nat) (x : String)
    (l : List String) (h : l.Pairwise (fun a b => cnt b ≤ cnt a)) :
    (insertByCountDesc cnt x l).Pairwise (fun a b => cnt b ≤ cnt a) := by
  induction l with
  | nil => simp [insertByCountDesc]
  | cons a t ih =>
    rcases List.pairwise_cons.mp h with ⟨ha, ht⟩
    by_cases hc : cnt a ≤ cnt x
    · simp only [insertByCountDesc, if_pos hc]
      refine List.pairwise_cons.mpr ⟨?_, h⟩
      intro z hz
      rcases List.mem_cons.mp hz with rfl | hz2
      · exact hc
      · exact Nat.le_trans (ha z hz2) hc
    · simp only [insertByCountDesc, if_neg hc]
      refine List.pairwise_cons.mpr ⟨?_, ih ht⟩
      intro z hz
      rcases (mem_insertByCountDesc cnt x z t).mp hz with rfl | hz2
      · exact Nat.le_of_not_le hc
      · exact ha z hz2

theorem nodup_insertByCountDesc (cnt : String → Nat) (x : String)
    (l : List String) (hx : x ∉ l) (h : l.Nodup) :
    (insertByCountDesc cnt x l).Nodup := by
  induction l with
  | nil => simp [insertByCountDesc]
  | cons a t ih =>
    rcases List.nodup_cons.mp h with ⟨hat, ht⟩
    by_cases hc : cnt a ≤ cnt x
    · simp only [insertByCountDesc, if_pos hc]
      exact List.nodup_cons.mpr ⟨hx, h⟩
    · simp only [insertByCountDesc, if_neg hc]
      refine List.nodup_cons.mpr ⟨?_, ih (fun hxt => hx (List.mem_cons_of_mem a hxt)) ht⟩
      intro hmem
      rcases (mem_insertByCountDesc cnt x a t).mp hmem with rfl | h2
      · exact hx (List.mem_cons_self a t)
      · exact hat h2

theorem mem_sortByCountDesc (cnt : String → Nat) (l : List String)
    (y : String) : y ∈ sortByCountDesc cnt l ↔ y ∈ l := by
  induction l with
  | nil => simp [sortByCountDesc]
  | cons a t ih =>
    show y ∈ insertByCountDesc cnt a (sortByCountDesc cnt t) ↔ _
    rw [mem_insertByCountDesc, ih]
    simp [eq_comm]

theorem sorted_sortByCountDesc (cnt : String → Nat) (l : List String) :
    (sortByCountDesc cnt l).Pairwise (fun a b => cnt b ≤ cnt a) := by
  induction l with
  | nil => simp [sortByCountDesc]
  | cons a t ih => exact sorted_insertByCountDesc cnt a _ ih

theorem nodup_sortByCountDesc (cnt : String → Nat) (l : List String)
    (h : l.Nodup) : (sortByCountDesc cnt l).Nodup := by
  induction l with
  | nil => simp [sortByCountDesc]
  | cons a t ih =>
    rcases List.nodup_cons.mp h with ⟨hat, ht⟩
    exact nodup_insertByCountDesc cnt a _
      (fun hmem => hat ((mem_sortByCountDesc cnt t a).mp hmem)) (ih ht)

theorem mem_dkfGo (l : List String) : ∀ (seen : List String) (x : String),
    x ∈ dkfGo seen l ↔ x ∈ l ∧ x ∉ seen := by
  induction l with
  | nil => intro seen x; simp [dkfGo]
  | cons a t ih =>
    intro seen x
    by_cases h : a ∈ seen
    · simp only [dkfGo, if_pos h, ih]
      constructor
      · rintro ⟨h1, h2⟩; exact ⟨List.mem_cons_of_mem a h1, h2⟩
      · rintro ⟨h1, h2⟩
        rcases List.mem_cons.mp h1 with rfl | h3
        · exact absurd h h2
        · exact ⟨h3, h2⟩
    · simp only [dkfGo, if_neg h, List.mem_cons, ih]
      constructor
      · rintro (rfl | ⟨h1, h2⟩)
        · exact ⟨Or.inl rfl, h⟩
        · exact ⟨Or.inr h1, fun hs => h2 (Or.inr hs)⟩
      · rintro ⟨rfl | h1, h2⟩
        · exact Or.inl rfl
        · by_cases hxa : x = a
          · exact Or.inl hxa
          · exact Or.inr ⟨h1, fun hs => hs.elim (fun h4 => hxa h4) h2⟩

theorem mem_distinctKeepFirst (l : List String) (x : String) :
    x ∈ distinctKeepFirst l ↔ x ∈ l := by
  rw [distinctKeepFirst, mem_dkfGo]
  simp

theorem nodup_dkfGo (l : List String) : ∀ seen : List String,
    (dkfGo seen l).Nodup := by
  induction l with
  | nil => intro seen; simp [dkfGo]
  | cons a t ih =>
    intro seen
    by_cases h : a ∈ seen
    · simpa [dkfGo, if_pos h] using ih seen
    · simp only [dkfGo, if_neg h]
      refine List.nodup_cons.mpr ⟨?_, ih (a :: seen)⟩
      intro hmem
      exact ((mem_dkfGo t (a :: seen) a).mp hmem).2 (List.mem_cons_self a seen)

theorem nodup_distinctKeepFirst (l : List String) :
    (distinctKeepFirst l).Nodup := nodup_dkfGo l []

/-- C10 counterexample: the ordering key of crud.get_actors is COUNT of the
detail column, which skips NULL details, not the number of lines.  Actor A
has two lines (both with NULL detail) and actor B one line with a detail,
yet get_actors returns B first, so the output is not ordered by number of
lines attributed to each name. -/
theorem people_order_counts_nonnull_details_only :
    get_actors c10Rows = ["B", "A"]
    ∧ lines_by_actor c10Rows "A" = 2
    ∧ lines_by_actor c10Rows "B" = 1
    ∧ ¬ (get_actors c10Rows).Pairwise
        (fun x y => lines_by_actor c10Rows y ≤ lines_by_actor c10Rows x) := by
  refine ⟨by decide, by decide, by decide, ?_⟩
  intro hp
  rw [(by decide : get_actors c10Rows = ["B", "A"])] at hp
  have hAB := (List.pairwise_cons.mp hp).1 "A" (by simp)
  exact absurd hAB (by decide)

/-- C10 amended: crud.get_actors and crud.get_characters return lists with
no duplicates and no null entries (every element is the value of a non-null
actor or character column of some row), ordered by descending COUNT of the
non-null detail column within each name group (ties in unspecified order). -/
theorem people_lists_sorted_nodup (rows : List Row) :
    ((get_actors rows).Nodup
    ∧ (get_actors rows).Pairwise
        (fun x y => count_detail_by_actor rows y ≤ count_detail_by_actor rows x)
    ∧ ∀ x ∈ get_actors rows, ∃ r, r ∈ rows ∧ r.actor = some x)
    ∧ ((get_characters rows).Nodup
    ∧ (get_characters rows).Pairwise
        (fun x y =>
          count_detail_by_character rows y ≤ count_detail_by_character rows x)
    ∧ ∀ x ∈ get_characters rows, ∃ r, r ∈ rows ∧ r.character = some x) := by
  refine ⟨⟨?_, ?_, ?_⟩, ?_, ?_, ?_⟩
  · exact nodup_sortByCountDesc _ _ (nodup_distinctKeepFirst _)
  · exact sorted_sortByCountDesc _ _
  · intro x hx
    have h1 := (mem_sortByCountDesc _ _ x).mp hx
    have h2 := (mem_distinctKeepFirst _ x).mp h1
    exact List.mem_filterMap.mp h2
  · exact nodup_sortByCountDesc _ _ (nodup_distinctKeepFirst _)
  · exact sorted_sortByCountDesc _ _
  · intro x hx
    have h1 := (mem_sortByCountDesc _ _ x).mp hx
    have h2 := (mem_distinctKeepFirst _ x).mp h1
    exact List.mem_filterMap.mp h2

/-- Witness for the amended C10 at a concrete table. -/
theorem people_lists_sorted_nodup_witness :
    ((get_actors c10Rows).Nodup
    ∧ (get_actors c10Rows).Pairwise
        (fun x y =>
          count_detail_by_actor c10Rows y ≤ count_detail_by_actor c10Rows x)
    ∧ ∀ x ∈ get_actors c10Rows, ∃ r, r ∈ c10Rows ∧ r.actor = some x)
    ∧ ((get_characters c10Rows).Nodup
    ∧ (get_characters c10Rows).Pairwise
        (fun x y =>
          count_detail_by_character c10Rows y
            ≤ count_detail_by_character c10Rows x)
    ∧ ∀ x ∈ get_characters c10Rows, ∃ r, r ∈ c10Rows ∧ r.character = some x) :=
  people_lists_sorted_nodup c10Rows

theorem likeGo_percent_skip (f : Nat) (ps s : List Char)
    (h : likeGo f ps s = true) : likeGo (f + 1) ('%' :: ps) s = true := by
  cases s with
  | nil =>
    show (likeGo f ps [] || false) = true
    simp [h]
  | cons a s2 =>
    show (likeGo f ps (a :: s2) || likeGo f ('%' :: ps) s2) = true
    simp [h]

theorem likeGo_self : ∀ (p : List Char) (fuel : Nat),
    p.length + p.length + 1 ≤ fuel → likeGo fuel p p = true := by
  intro p
  induction p with
  | nil =>
    intro fuel hf
    cases fuel with
    | zero => omega
    | succ f => simp [likeGo]
  | cons c ps ih =>
    intro fuel hf
    simp only [List.length_cons] at hf
    cases fuel with
    | zero => omega
    | succ f =>
      by_cases hc : c = '%'
      · subst hc
        show (likeGo f ps ('%' :: ps) || likeGo f ('%' :: ps) ps) = true
        cases f with
        | zero => omega
        | succ f2 =>
          have h1 : likeGo f2 ps ps = true := ih f2 (by omega)
          simp [likeGo_percent_skip f2 ps ps h1]
      · by_cases hu : c = '_'
        · subst hu
          show likeGo f ps ps = true
          exact ih f (by omega)
        · have key :
              (if c = '_' then likeGo f ps ps
               else likeCharEq c c && likeGo f ps ps) = true := by
            rw [if_neg hu, Bool.and_eq_true]
            exact ⟨by simp [likeCharEq], ih f (by omega)⟩
          rw [likeGo, if_neg hc]
          exact key

theorem like_self (s : List Char) : likeMatch s s = true :=
  likeGo_self s (s.length + s.length + 1) (Nat.le_refl _)

theorem segLike_of_eq (r : Row) (c : String) (h : r.segment = some c) :
    segLike c r = true := by
  unfold segLike
  rw [h]
  exact like_self c.data

set_option maxRecDepth 1000000 in
/-- C8 counterexample: a table satisfying the stated precondition (every
episode 1 to 45 has lines and a Dialogue line exists) on which the random
sketch operation does not return a result: every segment is NULL, so
random.choice runs on an empty list and raises IndexError (a 500, neither a
result nor a 404). -/
theorem random_sketch_errors_on_all_null_segments :
    ((List.range' 1 45).all
      (fun i => c8NullRows.any (fun row => row.episode == i))) = true
    ∧ c8NullRows.any (fun row => row.type == some "Dialogue") = true
    ∧ get_sketch c8NullRows none false 0 = .error ⟨500, "IndexError"⟩ := by
  decide

/-- C8 amended: with the additional precondition that at least one line has
a non-null sketch name, every random operation returns a result drawn from
its non-empty candidate set: random sketch (any random index), random
episode (any random number 1 to 45) and the crud-level random quote with no
filters never reach a not-found or error branch. -/
theorem random_ops_succeed (rows : List Row) (d : Bool) (r1 r2 : Nat)
    (h1 : ((List.range' 1 45).all
      (fun i => rows.any (fun row => row.episode == i))) = true)
    (h2 : rows.any (fun row => row.type == some "Dialogue") = true)
    (h3 : rows.any (fun row => row.segment.isSome) = true)
    (h4 : 1 ≤ r2) (h5 : r2 ≤ 45) :
    (get_sketch rows none d r1).toBool = true
    ∧ (get_episode rows none d r2).toBool = true
    ∧ (get_random_quote rows none none none).toBool = true := by
  refine ⟨?_, ?_, ?_⟩
  · obtain ⟨r0, hr0, hseg⟩ := List.any_eq_true.mp h3
    obtain ⟨sg, hsg⟩ := Option.isSome_iff_exists.mp hseg
    have hmemnames : sg ∈ all_segment_names rows :=
      (mem_distinctKeepFirst _ sg).mpr (List.mem_filterMap.mpr ⟨r0, hr0, hsg⟩)
    have hlen : 0 < (all_segment_names rows).length := by
      refine List.length_pos.mpr (fun hnil => ?_)
      rw [hnil] at hmemnames
      simp at hmemnames
    have hidx : r1 % (all_segment_names rows).length <
        (all_segment_names rows).length := Nat.mod_lt _ hlen
    cases hc : (all_segment_names rows).get?
        (r1 % (all_segment_names rows).length) with
    | none =>
      have := List.get?_eq_none.mp hc
      omega
    | some c =>
      have hcmem : c ∈ all_segment_names rows := List.get?_mem hc
      obtain ⟨rr, hrr, hrrseg⟩ :=
        List.mem_filterMap.mp ((mem_distinctKeepFirst _ c).mp hcmem)
      have hfmem : rr ∈ rows.filter (segLike c) :=
        List.mem_filter.mpr ⟨hrr, segLike_of_eq rr c hrrseg⟩
      have hc2 : (all_segment_names rows)[r1 % (all_segment_names rows).length]?
          = some c := by
        rw [← List.get?_eq_getElem?]
        exact hc
      have hstep : get_sketch rows none d r1 = sketch_lookup rows c d := by
        simp [get_sketch, hc2]
      rw [hstep]
      unfold sketch_lookup
      cases hh : (rows.filter (segLike c)).head? with
      | none =>
        rw [List.head?_eq_none_iff.mp hh] at hfmem
        simp at hfmem
      | some fst => rfl
  · have hmemr : r2 ∈ List.range' 1 45 := List.mem_range'_1.mpr ⟨h4, by omega⟩
    obtain ⟨row, hrow, hbeq⟩ :=
      List.any_eq_true.mp (List.all_eq_true.mp h1 r2 hmemr)
    have hq : row ∈ rows.filter (fun r => r.episode == r2) :=
      List.mem_filter.mpr ⟨hrow, hbeq⟩
    cases hh : (rows.filter (fun r => r.episode == r2)).head? with
    | none =>
      rw [List.head?_eq_none_iff.mp hh] at hq
      simp at hq
    | some fst =>
      have hcond : ¬((r2 < 1 || 45 < r2) = true) := by
        simp
        omega
      have hsk : get_episode_sketches rows r2 = .ok (distinctKeepFirst
          ((rows.filter (fun r => r.episode == r2)).filterMap
            (fun r => r.segment))) := by
        unfold get_episode_sketches
        rw [if_neg hcond]
      simp only [get_episode]
      rw [hh, hsk]
      rfl
  · obtain ⟨row, hrow, hbeq⟩ := List.any_eq_true.mp h2
    have hq : row ∈ dialogue_candidates rows none none none := by
      unfold dialogue_candidates
      refine List.mem_filter.mpr ⟨hrow, ?_⟩
      simp [quote_filters, hbeq]
    cases hh : (dialogue_candidates rows none none none).head? with
    | none =>
      rw [List.head?_eq_none_iff.mp hh] at hq
      simp at hq
    | some q =>
      simp only [get_random_quote, hh]
      rfl

set_option maxRecDepth 1000000 in
/-- Witness for the amended C8 at a concrete table with 45 episodes. -/
theorem random_ops_succeed_witness :
    (get_sketch c8DemoRows none false 0).toBool = true
    ∧ (get_episode c8DemoRows none false 3).toBool = true
    ∧ (get_random_quote c8DemoRows none none none).toBool = true :=
  random_ops_succeed c8DemoRows false 0 3 (by decide) (by decide) (by decide)
    (by decide) (by decide)

theorem simDen_pos (x w : String) : 0 < simDen x w := by
  unfold simDen
  by_cases h : x.length + w.length = 0
  · simp [h]
  · simp [h]
    omega

theorem ratioLeB_refl (w x : String) : ratioLeB w x x = true := by
  simp [ratioLeB]

theorem ratioLeB_trans (w x y z : String) (h1 : ratioLeB w x y = true)
    (h2 : ratioLeB w y z = true) : ratioLeB w x z = true := by
  simp only [ratioLeB, decide_eq_true_eq] at h1 h2 ⊢
  have hy := simDen_pos y w
  have key : (simNum x w * simDen z w) * simDen y w
      ≤ (simNum z w * simDen x w) * simDen y w := by
    calc (simNum x w * simDen z w) * simDen y w
        = (simNum x w * simDen y w) * simDen z w := by ring
      _ ≤ (simNum y w * simDen x w) * simDen z w :=
          Nat.mul_le_mul_right _ h1
      _ = (simNum y w * simDen z w) * simDen x w := by ring
      _ ≤ (simNum z w * simDen y w) * simDen x w :=
          Nat.mul_le_mul_right _ h2
      _ = (simNum z w * simDen x w) * simDen y w := by ring
  exact Nat.le_of_mul_le_mul_right key hy

theorem pbStep_some (w : String) (acc : Option String) (x : String) :
    ∃ c, pbStep w acc x = some c
      ∧ (c = x ∨ acc = some c)
      ∧ ratioLeB w x c = true
      ∧ (∀ b, acc = some b → ratioLeB w b c = true) := by
  cases acc with
  | none =>
    exact ⟨x, rfl, Or.inl rfl, ratioLeB_refl w x,
      fun b hb => Option.noConfusion hb⟩
  | some b =>
    by_cases hcond :
        (ratioLtB w b x || (ratioEqB w x b && strLtCP b.data x.data)) = true
    · refine ⟨x, by simp [pbStep, hcond], Or.inl rfl, ratioLeB_refl w x, ?_⟩
      intro b2 hb2
      injection hb2 with hb2
      subst hb2
      have hcond2 : ratioLtB w b x = true
          ∨ (ratioEqB w x b = true ∧ strLtCP b.data x.data = true) := by
        simpa using hcond
      rcases hcond2 with hlt | ⟨heq, _⟩
      · simp only [ratioLtB, decide_eq_true_eq] at hlt
        simp only [ratioLeB, decide_eq_true_eq]
        exact Nat.le_of_lt hlt
      · simp only [ratioEqB, beq_iff_eq] at heq
        simp only [ratioLeB, decide_eq_true_eq]
        exact Nat.le_of_eq heq.symm
    · have hlt2 : ratioLtB w b x = false := by
        cases hb : ratioLtB w b x
        · rfl
        · exact absurd (by simp [hb]) hcond
      refine ⟨b, by simp [pbStep, hcond], Or.inr rfl, ?_, ?_⟩
      · simp only [ratioLtB, decide_eq_false_iff_not] at hlt2
        simp only [ratioLeB, decide_eq_true_eq]
        omega
      · intro b2 hb2
        injection hb2 with hb2
        subst hb2
        exact ratioLeB_refl w _

theorem pbFold_some (w : String) : ∀ (l : List String) (acc : Option String)
    (m : String), l.foldl (pbStep w) acc = some m →
      (acc = some m ∨ m ∈ l)
      ∧ (∀ x ∈ l, ratioLeB w x m = true)
      ∧ (∀ b, acc = some b → ratioLeB w b m = true) := by
  intro l
  induction l with
  | nil =>
    intro acc m h
    have hacc : acc = some m := h
    refine ⟨Or.inl hacc, by simp, ?_⟩
    intro b hb
    rw [hacc] at hb
    injection hb with hb
    subst hb
    exact ratioLeB_refl w _
  | cons a t ih =>
    intro acc m h
    rw [List.foldl_cons] at h
    obtain ⟨c, hc, hid, hxc, hbc⟩ := pbStep_some w acc a
    rw [hc] at h
    obtain ⟨hmem, hmax, hacc⟩ := ih (some c) m h
    have hcm : ratioLeB w c m = true := hacc c rfl
    refine ⟨?_, ?_, ?_⟩
    · rcases hmem with hc2 | hmemt
      · injection hc2 with hc2
        subst hc2
        rcases hid with rfl | hid2
        · exact Or.inr (List.mem_cons_self _ _)
        · exact Or.inl hid2
      · exact Or.inr (List.mem_cons_of_mem a hmemt)
    · intro x hx
      rcases List.mem_cons.mp hx with rfl | hxt
      · exact ratioLeB_trans w x c m hxc hcm
      · exact hmax x hxt
    · intro b hb
      exact ratioLeB_trans w b c m (hbc b hb) hcm

theorem pbFold_ne_none (w : String) : ∀ (l : List String) (acc : Option String),
    l.foldl (pbStep w) acc = none → acc = none ∧ l = [] := by
  intro l
  induction l with
  | nil => intro acc h; exact ⟨h, rfl⟩
  | cons a t ih =>
    intro acc h
    rw [List.foldl_cons] at h
    obtain ⟨c, hc, _⟩ := pbStep_some w acc a
    rw [hc] at h
    obtain ⟨h1, _⟩ := ih (some c) h
    exact Option.noConfusion h1

theorem gcm_none_sound (w : String) (poss : List String)
    (h : get_close_matches1 w poss = none) :
    ∀ x ∈ poss, simGe50 x w = false := by
  unfold get_close_matches1 pickBest at h
  obtain ⟨_, hnil⟩ := pbFold_ne_none w _ none h
  intro x hx
  cases hb : simGe50 x w
  · rfl
  · have hmem : x ∈ poss.filter (fun y => simGe50 y w) :=
      List.mem_filter.mpr ⟨hx, hb⟩
    rw [hnil] at hmem
    simp at hmem

theorem gcm_some_sound (w : String) (poss : List String) (m : String)
    (h : get_close_matches1 w poss = some m) :
    m ∈ poss ∧ simGe50 m w = true
    ∧ ∀ x ∈ poss, ratioLeB w x m = true := by
  unfold get_close_matches1 pickBest at h
  obtain ⟨hmem, hmax, _⟩ := pbFold_some w _ none m h
  rcases hmem with habs | hmem
  · exact Option.noConfusion habs
  · obtain ⟨hmp, hmge⟩ := List.mem_filter.mp hmem
    refine ⟨hmp, hmge, ?_⟩
    intro x hx
    by_cases hq : simGe50 x w = true
    · exact hmax x (List.mem_filter.mpr ⟨hx, hq⟩)
    · have hxf : 2 * simNum x w < simDen x w := by
        simp only [simGe50, decide_eq_true_eq] at hq
        omega
      have hmge2 : simDen m w ≤ 2 * simNum m w := by
        simp only [simGe50, decide_eq_true_eq] at hmge
        exact hmge
      simp only [ratioLeB, decide_eq_true_eq]
      calc simNum x w * simDen m w
          ≤ simNum x w * (2 * simNum m w) := Nat.mul_le_mul_left _ hmge2
        _ = (2 * simNum x w) * simNum m w := by ring
        _ ≤ simDen x w * simNum m w :=
            Nat.mul_le_mul_right _ (Nat.le_of_lt hxf)
        _ = simNum m w * simDen x w := by ring

theorem sketch_lookup_toBool (rows : List Row) (c : String) (d : Bool) :
    (sketch_lookup rows c d).toBool = rows.any (segLike c) := by
  cases hh : (rows.filter (segLike c)).head? with
  | none =>
    have hnil := List.head?_eq_none_iff.mp hh
    have hany : rows.any (segLike c) = false := by
      rw [List.any_eq_false]
      intro x hx
      exact (List.filter_eq_nil_iff.mp hnil) x hx
    unfold sketch_lookup
    rw [hh, hany]
    rfl
  | some fst =>
    obtain ⟨hf1, hf2⟩ := List.mem_filter.mp (head?_mem hh)
    have hany : rows.any (segLike c) = true :=
      List.any_eq_true.mpr ⟨fst, hf1, hf2⟩
    unfold sketch_lookup
    rw [hh, hany]
    rfl

/-- C3 amended: for an input that is not an exact sketch name (and shorter
than 200 characters, below the difflib autojunk threshold), crud.get_sketch
replaces the input by the single best close match when some known name has
ratio at least 0.5 against the input (the returned best match is a known
name, reaches the cutoff, and no known name scores strictly higher), and
otherwise keeps the raw input; in both cases the lookup succeeds exactly
when some line segment matches the queried name under SQL LIKE, and yields the
404 not-found exactly when none does. -/
theorem sketch_fuzzy_best_match_or_like_fallthrough (rows : List Row)
    (s : String) (d : Bool) (r : Nat)
    (hex : s ∉ all_segment_names rows) (hlen : s.length < 200) :
    (∀ m, get_close_matches1 s (all_segment_names rows) = some m →
        m ∈ all_segment_names rows
      ∧ simGe50 m s = true
      ∧ (∀ x ∈ all_segment_names rows, ratioLeB s x m = true)
      ∧ (get_sketch rows (some s) d r).toBool = rows.any (segLike m))
    ∧ (get_close_matches1 s (all_segment_names rows) = none →
        (∀ x ∈ all_segment_names rows, simGe50 x s = false)
      ∧ (get_sketch rows (some s) d r).toBool = rows.any (segLike s)) := by
  constructor
  · intro m hm
    obtain ⟨hmem, hge, hmax⟩ := gcm_some_sound s _ m hm
    refine ⟨hmem, hge, hmax, ?_⟩
    have hstep : get_sketch rows (some s) d r = sketch_lookup rows m d := by
      simp [get_sketch, sketch_query_name, hm]
    rw [hstep, sketch_lookup_toBool]
  · intro hm
    refine ⟨gcm_none_sound s _ hm, ?_⟩
    have hstep : get_sketch rows (some s) d r = sketch_lookup rows s d := by
      simp [get_sketch, sketch_query_name, hm]
    rw [hstep, sketch_lookup_toBool]

set_option maxRecDepth 1000000 in
/-- C3 counterexample: on a table whose only sketch is Spam, the input
percent sign matches no known name exactly and no known name reaches
similarity 0.5, yet the lookup does not fall through to not-found: the LIKE
query with the raw input (a wildcard) matches the Spam row and the call
succeeds. -/
theorem sketch_unmatched_input_not_404 :
    ("%" ∉ all_segment_names c3Rows)
    ∧ (∀ x ∈ all_segment_names c3Rows, simGe50 x "%" = false)
    ∧ get_sketch c3Rows (some "%") false 0 =
        .ok ⟨some "Spam", 1, some "Ep", [.condensed "Waitress: spam"]⟩ := by
  decide

set_option maxRecDepth 1000000 in
/-- Witness for the amended C3 at a concrete table and a misspelled input. -/
theorem sketch_fuzzy_best_match_witness :
    (∀ m, get_close_matches1 "Spamm" (all_segment_names c3Rows) = some m →
        m ∈ all_segment_names c3Rows
      ∧ simGe50 m "Spamm" = true
      ∧ (∀ x ∈ all_segment_names c3Rows, ratioLeB "Spamm" x m = true)
      ∧ (get_sketch c3Rows (some "Spamm") false 0).toBool
          = c3Rows.any (segLike m))
    ∧ (get_close_matches1 "Spamm" (all_segment_names c3Rows) = none →
        (∀ x ∈ all_segment_names c3Rows, simGe50 x "Spamm" = false)
      ∧ (get_sketch c3Rows (some "Spamm") false 0).toBool
          = c3Rows.any (segLike "Spamm")) :=
  sketch_fuzzy_best_match_or_like_fallthrough c3Rows "Spamm" false 0
    (by decide) (by decide)
